import Mathlib

/-!
Shallow embedding of `cart_maker.py`: a script that builds a fixed-size
Atari 2600 cartridge image by concatenating four hand-written machine-code
segments, padding with a filler byte, and patching the reset vector into
two fixed trailer offsets.  Python `bytearray`s become `List Nat`; Python
ints are `Nat` (all values involved are non-negative, and Python's
`rom_size - code_length` followed by `[pad_byte] * n`, which yields the
empty list for `n <= 0`, coincides with truncated `Nat` subtraction).
-/

namespace CartMaker

/-- Python `def lsb(word): return(word & 0x00FF)` -/
def lsb (word : Nat) : Nat := word &&& 0x00FF

/-- Python `def msb(word): return(word >> 8)` -/
def msb (word : Nat) : Nat := word >>> 8

/-- Line 28: `rom_size = 2 * 1024` -/
def rom_size : Nat := 2 * 1024

/-- Line 29: `pad_byte = 0` -/
def pad_byte : Nat := 0

/-- Line 38: `reset_vector = 0xFFFF - rom_size + 1` -/
def reset_vector : Nat := 0xFFFF - rom_size + 1

/-- Segment `init_tia = bytearray([...])` — initialization routine, lines 57-73. -/
def init_tia : List Nat :=
  [0x78,
   0xD8,
   0xA2, 0xFF,
   0x9A,
   0xA9, 0x00,
   0xE8,
   0xA8,
   0x95, 0x00,
   0xCA,
   0xD0, 0xFB]

/-- Segment `vblank = bytearray([...])` — vertical blank routine, lines 80-101. -/
def vblank : List Nat :=
  [0xA9, 0x02,
   0x85, 0x01,
   0x85, 0x00,
   0x85, 0x02,
   0x85, 0x02,
   0x85, 0x02,
   0xA9, 0x00,
   0x85, 0x00,
   0xA2, 0x25,
   0x85, 0x02,
   0xCA,
   0xD0, 0xFB,
   0x85, 0x01]

/-- Segment `viz_area = bytearray([...])` — visible-area routine, lines 110-122. -/
def viz_area : List Nat :=
  [0xA2, 0xC0,
   0xA4, 0x80,
   0x84, 0x09,
   0xC8,
   0xC8,
   0x85, 0x02,
   0xCA,
   0xD0, 0xF7]

/-- Line 129: `looptop = 0xFFFF - rom_size + len(init_tia) + 5` (line 129). -/
def looptop : Nat := 0xFFFF - rom_size + init_tia.length + 5

/-- Segment `overscan = bytearray([...])` — overscan routine ending in
`0x4C, lsb(looptop), msb(looptop)`, lines 138-161. -/
def overscan : List Nat :=
  [0xA9, 0x02,
   0x85, 0x01,
   0xA2, 0x1C,
   0x85, 0x02,
   0xCA,
   0xD0, 0xFB,
   0xA5, 0x80,
   0x38,
   0xE9, 0x04,
   0x85, 0x02,
   0x85, 0x80,
   0xA9, 0x02,
   0x85, 0x02,
   0x4C, lsb looptop,
         msb looptop]

/-- Line 172: `rom = init_tia + vblank + viz_area + overscan` (line 172) — the
concatenated code, before padding and patching. -/
def code : List Nat := init_tia ++ vblank ++ viz_area ++ overscan

/-- Line 173: `code_length = len(rom)` (line 173). -/
def code_length : Nat := code.length

/-- Line 176: `num_pad_bytes = rom_size - code_length` (line 176); Python would give a
negative number when the code is oversized, and `[pad_byte] * n` is then
empty, which truncated subtraction reproduces. -/
def num_pad_bytes : Nat := rom_size - code_length

/-- The finished `rom` after line 177 (padding) and lines 181-182 (reset
vector patch at `rom_size - 5` and `rom_size - 3`). -/
def rom : List Nat :=
  ((code ++ List.replicate num_pad_bytes pad_byte).set
      (rom_size - 5) (lsb reset_vector)).set
    (rom_size - 3) (msb reset_vector)

/-- The build steps of lines 172-182 generalized over the inputs the spec's
`assemble` contract names: the ordered segment list, the target image size,
the padding byte and the top-of-address-space constant (the script fixes
`top = 0xFFFF`, `rom_size = 2048`, `pad_byte = 0`).  Concatenate, append
`romSize - length` filler bytes (empty when the code is oversized, as in
Python), then patch `lsb`/`msb` of `top - romSize + 1` at offsets
`romSize - 5` and `romSize - 3`. -/
def assemble (segments : List (List Nat)) (romSize padByte top : Nat) :
    List Nat :=
  let joined := segments.flatten
  let padded := joined ++ List.replicate (romSize - joined.length) padByte
  (padded.set (romSize - 5) (lsb (top - romSize + 1))).set
    (romSize - 3) (msb (top - romSize + 1))

/-- The script's concrete build is an instance of the generalized one. -/
theorem rom_eq_assemble :
    rom = assemble [init_tia, vblank, viz_area, overscan] rom_size pad_byte
      0xFFFF := by
  simp [rom, assemble, code, num_pad_bytes, code_length, rom_size, pad_byte,
    reset_vector, List.flatten]

end CartMaker

namespace CartMaker

/-! ## Helper lemmas -/

/-- Helper: masking with `0x00FF` is reduction modulo 256. -/
theorem lsb_eq_mod (word : Nat) : lsb word = word % 256 := by
  have h := Nat.and_pow_two_sub_one_eq_mod word 8
  norm_num at h
  simpa [lsb] using h

/-- Helper: shifting right by 8 is division by 256. -/
theorem msb_eq_div (word : Nat) : msb word = word / 256 := by
  have h := Nat.shiftRight_eq_div_pow word 8
  norm_num at h
  simpa [msb] using h

/-- Helper: the assembled buffer has length `len + (romSize - len)` where
`len` is the concatenated code length (the two patches change no length). -/
theorem assemble_length (segments : List (List Nat))
    (romSize padByte top : Nat) :
    (assemble segments romSize padByte top).length
      = segments.flatten.length + (romSize - segments.flatten.length) := by
  simp [assemble]

/-- Helper: whatever the code length, the byte at offset `romSize - 5` of
the assembled buffer is the low byte of `top - romSize + 1`. -/
theorem assemble_getElem_low (segments : List (List Nat))
    (romSize padByte top : Nat) (h5 : 5 ≤ romSize) :
    (assemble segments romSize padByte top)[romSize - 5]?
      = some (lsb (top - romSize + 1)) := by
  simp only [assemble]
  rw [List.getElem?_set_ne (by omega)]
  refine List.getElem?_set_self ?_
  simp only [List.length_append, List.length_replicate]
  omega

/-- Helper: the padded buffer has length `romSize` whenever the code fits. -/
theorem padded_length (joined : List Nat) (romSize padByte : Nat)
    (h : joined.length ≤ romSize) :
    (joined ++ List.replicate (romSize - joined.length) padByte).length
      = romSize := by
  simp
  omega

end CartMaker

namespace CartMaker

/-! ## Claims -/

/-- C6: the address-splitting helpers `lsb` and `msb` are pure total
functions; for every 16-bit address `addr`, `lsb addr` equals
`addr & 0xFF` (that is, `addr % 256`) and `msb addr` equals `addr >> 8`
(that is, `addr / 256`), and both results stay below 256, so there is no
failure mode for in-range input. -/
theorem C6_split_address (addr : Nat) (h : addr < 2 ^ 16) :
    lsb addr = addr % 256 ∧ msb addr = addr / 256 ∧
    lsb addr < 256 ∧ msb addr < 256 := by
  refine ⟨lsb_eq_mod addr, msb_eq_div addr, ?_, ?_⟩
  · rw [lsb_eq_mod]
    exact Nat.mod_lt _ (by decide)
  · rw [msb_eq_div]
    have h2 : addr < 256 * 256 := by omega
    exact Nat.div_lt_of_lt_mul h2

/-- Witness for C6 at `addr = 0xF812`. -/
theorem C6_split_address_witness :
    (0xF812 : Nat) < 2 ^ 16 ∧
      (lsb 0xF812 = 0xF812 % 256 ∧ msb 0xF812 = 0xF812 / 256 ∧
        lsb 0xF812 < 256 ∧ msb 0xF812 < 256) :=
  ⟨by decide, C6_split_address 0xF812 (by decide)⟩

/-- C9: splitting and recombining round-trips; for every word `w` with
`0 ≤ w ≤ 0xFFFF`, `msb w * 256 + lsb w = w`, and both `lsb w` and `msb w`
lie in `[0, 255]`. -/
theorem C9_split_roundtrip (w : Nat) (h : w ≤ 0xFFFF) :
    msb w * 256 + lsb w = w ∧ lsb w ≤ 255 ∧ msb w ≤ 255 := by
  rw [lsb_eq_mod, msb_eq_div]
  refine ⟨?_, ?_, ?_⟩
  · rw [Nat.mul_comm]
    exact Nat.div_add_mod w 256
  · have := Nat.mod_lt w (y := 256) (by decide)
    omega
  · have : w / 256 < 256 := Nat.div_lt_of_lt_mul (by omega)
    omega

/-- Witness for C9 at `w = 0xF800`. -/
theorem C9_split_roundtrip_witness :
    (0xF800 : Nat) ≤ 0xFFFF ∧
      (msb 0xF800 * 256 + lsb 0xF800 = 0xF800 ∧
        lsb 0xF800 ≤ 255 ∧ msb 0xF800 ≤ 255) :=
  ⟨by decide, C9_split_roundtrip 0xF800 (by decide)⟩

/-- C7: assembly is deterministic and free of hidden state; two runs of the
assembly computation on identical inputs (same segments, rom size, pad
byte, top-of-address-space) produce byte-identical output buffers. -/
theorem C7_deterministic (s₁ s₂ : List (List Nat)) (r₁ r₂ p₁ p₂ t₁ t₂ : Nat)
    (hs : s₁ = s₂) (hr : r₁ = r₂) (hp : p₁ = p₂) (ht : t₁ = t₂) :
    assemble s₁ r₁ p₁ t₁ = assemble s₂ r₂ p₂ t₂ := by
  rw [hs, hr, hp, ht]

/-- Witness for C7 at the script's own inputs. -/
theorem C7_deterministic_witness :
    assemble [init_tia, vblank, viz_area, overscan] 2048 0 0xFFFF
      = assemble [init_tia, vblank, viz_area, overscan] 2048 0 0xFFFF :=
  C7_deterministic [init_tia, vblank, viz_area, overscan]
    [init_tia, vblank, viz_area, overscan] 2048 2048 0 0 0xFFFF 0xFFFF
    rfl rfl rfl rfl

/-- C3: for every rom size and every segment list whose total concatenated
length is at most the rom size, the assembled image has length exactly the
rom size (concatenation followed by `romSize - length` copies of the pad
byte). -/
theorem C3_image_length (segments : List (List Nat))
    (romSize padByte top : Nat)
    (h : segments.flatten.length ≤ romSize) :
    (assemble segments romSize padByte top).length = romSize := by
  simp only [assemble, List.length_set]
  exact padded_length _ _ _ h

/-- Witness for C3 at the script's own inputs. -/
theorem C3_image_length_witness :
    [init_tia, vblank, viz_area, overscan].flatten.length ≤ 2048 ∧
      (assemble [init_tia, vblank, viz_area, overscan] 2048 0 0xFFFF).length
        = 2048 :=
  ⟨by decide,
   C3_image_length [init_tia, vblank, viz_area, overscan] 2048 0 0xFFFF
     (by decide)⟩

end CartMaker

namespace CartMaker

/-- C4: in every assembled image whose segments fit within the rom size (of
at least 5 bytes), the byte at offset `romSize - 5` equals the low byte of
`top - romSize + 1` and the byte at offset `romSize - 3` equals the high
byte of `top - romSize + 1`: the stored reset vector is the address of byte
offset 0 of the image in the top mirror window. -/
theorem C4_reset_vector_patch (segments : List (List Nat))
    (romSize padByte top : Nat)
    (hfit : segments.flatten.length ≤ romSize) (h5 : 5 ≤ romSize) :
    (assemble segments romSize padByte top)[romSize - 5]?
        = some (lsb (top - romSize + 1)) ∧
      (assemble segments romSize padByte top)[romSize - 3]?
        = some (msb (top - romSize + 1)) := by
  simp only [assemble]
  have hlen := padded_length segments.flatten romSize padByte hfit
  constructor
  · rw [List.getElem?_set_ne (by omega)]
    exact List.getElem?_set_self (by omega)
  · exact List.getElem?_set_self (by simp [hlen]; omega)

/-- Witness for C4 at the script's own inputs. -/
theorem C4_reset_vector_patch_witness :
    [init_tia, vblank, viz_area, overscan].flatten.length ≤ 2048 ∧
      (5 : Nat) ≤ 2048 ∧
      ((assemble [init_tia, vblank, viz_area, overscan] 2048 0
          0xFFFF)[2048 - 5]? = some (lsb (0xFFFF - 2048 + 1)) ∧
        (assemble [init_tia, vblank, viz_area, overscan] 2048 0
          0xFFFF)[2048 - 3]? = some (msb (0xFFFF - 2048 + 1))) :=
  ⟨by decide, by decide,
   C4_reset_vector_patch [init_tia, vblank, viz_area, overscan] 2048 0
     0xFFFF (by decide) (by decide)⟩

/-- C8: when the concatenated code ends at least 5 bytes before the end of
the image, the reset-vector patch modifies only the two offsets
`romSize - 5` and `romSize - 3`: the bytes at offsets below the
concatenated length equal the caller-supplied segment bytes unmodified,
and every non-patched byte from the concatenated length up to `romSize`
(which includes offsets `romSize - 4`, `romSize - 2` and `romSize - 1`)
equals the pad byte. -/
theorem C8_frame_effect (segments : List (List Nat))
    (romSize padByte top : Nat)
    (h : segments.flatten.length + 5 ≤ romSize) :
    (∀ i, i < segments.flatten.length →
        (assemble segments romSize padByte top)[i]?
          = segments.flatten[i]?) ∧
      (∀ i, segments.flatten.length ≤ i → i < romSize →
        i ≠ romSize - 5 → i ≠ romSize - 3 →
        (assemble segments romSize padByte top)[i]? = some padByte) := by
  simp only [assemble]
  constructor
  · intro i hi
    rw [List.getElem?_set_ne (by omega), List.getElem?_set_ne (by omega)]
    exact List.getElem?_append_left hi
  · intro i hlow hhigh h5 h3
    rw [List.getElem?_set_ne (by omega), List.getElem?_set_ne (by omega)]
    rw [List.getElem?_append_right hlow]
    exact List.getElem?_replicate_of_lt (by omega)

/-- Witness for C8 at the script's own inputs, checked at offsets 0 (a code
byte) and 100 (a pad byte). -/
theorem C8_frame_effect_witness :
    [init_tia, vblank, viz_area, overscan].flatten.length + 5 ≤ 2048 ∧
      (assemble [init_tia, vblank, viz_area, overscan] 2048 0 0xFFFF)[0]?
        = [init_tia, vblank, viz_area, overscan].flatten[0]? ∧
      (assemble [init_tia, vblank, viz_area, overscan] 2048 0 0xFFFF)[100]?
        = some 0 :=
  ⟨by decide,
   (C8_frame_effect [init_tia, vblank, viz_area, overscan] 2048 0 0xFFFF
       (by decide)).1 0 (by decide),
   (C8_frame_effect [init_tia, vblank, viz_area, overscan] 2048 0 0xFFFF
       (by decide)).2 100 (by decide) (by decide) (by decide) (by decide)⟩

end CartMaker

namespace CartMaker

/-- C1 counterexample: `looptop`, the value whose low and high bytes the
script places in the JMP operand at the end of `overscan`, is neither the
claimed `0xF814` nor the value of the claimed formula
`top - rom_size + 1 + 14 + 5` (which is `0xF813`); it is `0xF812`. -/
theorem C1_reentry_counterexample :
    looptop ≠ 0xF814 ∧ looptop ≠ 0xFFFF - rom_size + 1 + 14 + 5 ∧
      looptop = 0xF812 := by
  decide

/-- C1 amended: the loop-reentry address is computed as
`0xFFFF - rom_size + len(init_tia) + 5`, i.e.
`(top - rom_size + 1) + 14 + 4` — the base address of the image plus the
length of the first segment plus a displacement of 4 (the offset of the
first `STA VSYNC` opcode inside `vblank`); for `rom_size = 2048` it equals
`0xF812`, and its low and high bytes are the last two bytes of
`overscan`. -/
theorem C1_reentry_address :
    looptop = 0xFFFF - rom_size + init_tia.length + 5 ∧
      looptop = (0xFFFF - rom_size + 1) + init_tia.length + 4 ∧
      looptop = 0xF812 ∧
      overscan.getD 25 0 = lsb looptop ∧
      overscan.getD 26 0 = msb looptop ∧
      lsb looptop = 0x12 ∧ msb looptop = 0xF8 := by
  decide

/-- C2: the script never checks whether the code fits; assembling an
oversized segment list (2049 bytes of `0xEA` against a 2048-byte image)
raises no error and produces a 2049-byte buffer — longer than `rom_size` —
whose byte at offset 2043 has been clobbered by the reset-vector patch
(it is `0x00`, the low byte of `0xF800`, instead of the code byte
`0xEA`). -/
theorem C2_oversize_unchecked :
    (assemble [List.replicate 2049 0xEA] 2048 0 0xFFFF).length = 2049 ∧
      (assemble [List.replicate 2049 0xEA] 2048 0 0xFFFF)[2048 - 5]?
        = some 0x00 ∧
      (List.replicate 2049 0xEA)[2048 - 5]? = some 0xEA := by
  refine ⟨?_, ?_, ?_⟩
  · rw [assemble_length]
    simp only [List.flatten_cons, List.flatten_nil, List.append_nil,
      List.length_replicate]
  · rw [assemble_getElem_low _ _ _ _ (by omega)]
    decide
  · exact List.getElem?_replicate_of_lt (by omega)

end CartMaker

namespace CartMaker

/-- Helper: setting position `i` of a replicated list splits it around the
new element. -/
theorem set_replicate {α : Type _} (n i : Nat) (a b : α) (h : i < n) :
    (List.replicate n a).set i b
      = List.replicate i a ++ b :: List.replicate (n - i - 1) a := by
  induction i generalizing n with
  | zero =>
    cases n with
    | zero => exact absurd h (by omega)
    | succ m => simp [List.replicate_succ]
  | succ k ih =>
    cases n with
    | zero => exact absurd h (by omega)
    | succ m =>
      rw [show m + 1 - (k + 1) - 1 = m - k - 1 by omega]
      simp [List.replicate_succ, List.set_cons_succ, ih m (by omega)]

/-- Helper: the fully built `rom` written as an explicit concatenation:
the 79 code bytes, 1964 pad bytes, then the patched five-byte trailer. -/
theorem rom_structure :
    rom = code ++ List.replicate 1964 pad_byte ++
      [lsb reset_vector, pad_byte, msb reset_vector, pad_byte, pad_byte] := by
  have hcode : code.length = 79 := by decide
  unfold rom
  rw [show num_pad_bytes = 1969 by decide]
  rw [show rom_size - 5 = 2043 by decide, show rom_size - 3 = 2045 by decide]
  rw [List.set_append_right _ _ (by rw [hcode]; omega)]
  rw [hcode, show (2043 - 79 : Nat) = 1964 by norm_num]
  rw [set_replicate 1969 1964 pad_byte (lsb reset_vector) (by omega)]
  rw [show (1969 - 1964 - 1 : Nat) = 4 by norm_num]
  rw [List.set_append_right _ _ (by rw [hcode]; omega)]
  rw [hcode, show (2045 - 79 : Nat) = 1966 by norm_num]
  rw [List.set_append_right _ _ (by simp only [List.length_replicate]; omega)]
  rw [List.length_replicate, show (1966 - 1964 : Nat) = 2 by norm_num]
  rw [show (lsb reset_vector :: List.replicate 4 pad_byte).set 2
        (msb reset_vector)
      = [lsb reset_vector, pad_byte, msb reset_vector, pad_byte, pad_byte]
    by decide]
  rw [List.append_assoc]

/-- Helper: the built image is 2048 bytes long. -/
theorem rom_length : rom.length = 2048 := by
  have hcode : code.length = 79 := by decide
  rw [rom_structure]
  simp only [List.length_append, List.length_replicate, List.length_cons,
    List.length_nil, hcode]

/-- Helper: whatever the code length, the byte at offset `romSize - 3` of
the assembled buffer is the high byte of `top - romSize + 1`. -/
theorem assemble_getElem_high (segments : List (List Nat))
    (romSize padByte top : Nat) (h3 : 3 ≤ romSize) :
    (assemble segments romSize padByte top)[romSize - 3]?
      = some (msb (top - romSize + 1)) := by
  simp only [assemble]
  refine List.getElem?_set_self ?_
  simp only [List.length_set, List.length_append, List.length_replicate]
  omega

end CartMaker

namespace CartMaker

/-- C5 counterexample: the claimed concrete scenario is false on the code —
the four segments have lengths 14, 25, 13 and 27, not 14, 24, 14 and 23,
and `reset_vector` is `0xF800`, not `0xF801`, so the byte at offset 2043
is `0x00`, not `0x01`. -/
theorem C5_scenario_counterexample :
    ¬(vblank.length = 24 ∧ viz_area.length = 14 ∧ overscan.length = 23 ∧
      reset_vector = 0xF801 ∧ rom[2043]? = some 0x01) :=
  fun h => absurd h.1 (by decide)

/-- C5 amended: for the program's concrete configuration (`rom_size`
= 2048, top = `0xFFFF`, `pad_byte` = 0), the four segments have lengths
14, 25, 13 and 27 bytes (total 79), and the produced image is 2048 bytes
with bytes `[0:79]` equal to the concatenated segment bytes, bytes
`[79:2043]` all `0x00`, reset address `0xF800`, byte at offset 2043 equal
to `0x00` and byte at offset 2045 equal to `0xF8`. -/
theorem C5_concrete_scenario :
    rom_size = 2048 ∧ pad_byte = 0 ∧
    init_tia.length = 14 ∧ vblank.length = 25 ∧ viz_area.length = 13 ∧
    overscan.length = 27 ∧ code_length = 79 ∧
    rom.length = 2048 ∧
    rom.take 79 = code ∧
    (rom.drop 79).take 1964 = List.replicate 1964 0x00 ∧
    reset_vector = 0xF800 ∧
    rom[2043]? = some 0x00 ∧ rom[2045]? = some 0xF8 := by
  have hcode : code.length = 79 := by decide
  refine ⟨by decide, by decide, by decide, by decide, by decide, by decide,
    by decide, rom_length, ?_, ?_, by decide, ?_, ?_⟩
  · rw [rom_structure, List.append_assoc]
    exact List.take_left' hcode
  · rw [rom_structure, List.append_assoc, List.drop_left' hcode,
      List.take_left' (List.length_replicate 1964 pad_byte)]
    rfl
  · rw [show (2043 : Nat) = rom_size - 5 by decide, rom_eq_assemble,
      assemble_getElem_low _ _ _ _ (by decide)]
    decide
  · rw [show (2045 : Nat) = rom_size - 3 by decide, rom_eq_assemble,
      assemble_getElem_high _ _ _ _ (by decide)]
    decide

/-- C10: for the program's concrete constants, every byte value placed into
the image — the segment literals, `lsb`/`msb` of `looptop`, `lsb`/`msb` of
`reset_vector`, and `pad_byte` — lies in `[0, 255]`, and the patch indices
`rom_size - 5` and `rom_size - 3` lie beyond the concatenated code length
(79 ≤ 2043) and within the padded buffer, so both index assignments hit
pad bytes and never an instruction byte. -/
theorem C10_bytes_and_indices_safe :
    (∀ b ∈ code, b < 256) ∧
    lsb looptop < 256 ∧ msb looptop < 256 ∧
    lsb reset_vector < 256 ∧ msb reset_vector < 256 ∧ pad_byte < 256 ∧
    code_length = 79 ∧ code_length ≤ rom_size - 5 ∧
    rom_size - 5 < rom.length ∧ rom_size - 3 < rom.length ∧
    (∀ b ∈ rom, b < 256) := by
  have hcodeall : ∀ b ∈ code, b < 256 := by decide
  refine ⟨hcodeall, by decide, by decide, by decide, by decide, by decide,
    by decide, by decide, ?_, ?_, ?_⟩
  · rw [rom_length]
    decide
  · rw [rom_length]
    decide
  · rw [rom_structure]
    intro b hb
    rcases List.mem_append.1 hb with h1 | h2
    · rcases List.mem_append.1 h1 with h3 | h4
      · exact hcodeall b h3
      · rw [List.eq_of_mem_replicate h4]
        decide
    · have : b = lsb reset_vector ∨ b = pad_byte ∨ b = msb reset_vector ∨
          b = pad_byte ∨ b = pad_byte := by simpa using h2
      rcases this with h | h | h | h | h <;> rw [h] <;> decide

end CartMaker
